import Mathlib

set_option maxRecDepth 100000

/-!
Verification of the GL / bank-statement categorization engine.

The development shallowly embeds the two Python source files
(gl_bank_agentic_model.py and GL_BANK_LANGCHAIN.py): text is a list of
characters, a table cell is a Python value (string, None, NaN, or a
number), rows are records of optional cells, and the classifiers,
column resolver and summary step are translated function by function.
Functions named after the source keep its structure; the suffix _lc
marks the GL_BANK_LANGCHAIN.py copy of a function where the two files
differ (where they are textually identical a single definition, or a
pair of identical definitions, stands for both).
-/

/-- Text is modelled as a list of characters. -/
abbrev Txt := List Char

/-- Python substring test: pyIn p t models the Python expression p in t. -/
def pyIn (p t : Txt) : Bool := decide (p <:+: t)

/-- Python t.startswith(p). -/
def pyStarts (p t : Txt) : Bool := decide (p <+: t)

/-- A Python value stored in a table cell: a string, None, a float NaN
(pandas encodes a missing cell this way), or a number. -/
inductive PyCell where
  | str (s : Txt)
  | pyNone
  | nan
  | num (n : Int)

/-- Python str(-) applied to a cell value, as used by categorize_gl. -/
def pyStr : PyCell → Txt
  | .str s => s
  | .pyNone => "None".data
  | .nan => "nan".data
  | .num n => (toString n).data

/-- Python s.upper() restricted to the basic latin range (the embedding
maps every character through Char.toUpper, matching Python on ASCII). -/
def pyUpper (s : Txt) : Txt := s.map Char.toUpper

/-- re.sub of one or more whitespace characters by a single space:
each maximal whitespace run is replaced by one space character
(line 11 of gl_bank_agentic_model.py, line 12 of GL_BANK_LANGCHAIN.py).
The regex whitespace class is modelled by Char.isWhitespace
(space, tab, carriage return, newline). -/
def squeezeWS : Txt → Txt
  | [] => []
  | [c] => if c.isWhitespace then [' '] else [c]
  | a :: b :: t =>
    if a.isWhitespace && b.isWhitespace then squeezeWS (b :: t)
    else (if a.isWhitespace then ' ' else a) :: squeezeWS (b :: t)

/-- Remove trailing whitespace. -/
def dropTrailWS (s : Txt) : Txt := (s.reverse.dropWhile Char.isWhitespace).reverse

/-- Python s.strip(): remove leading and trailing whitespace. -/
def stripWS (s : Txt) : Txt := dropTrailWS (s.dropWhile Char.isWhitespace)

/-- The text branch of normalize_text: upper-case, compress whitespace,
strip, in the order of the source. -/
def normalizeTxt (s : Txt) : Txt := stripWS (squeezeWS (pyUpper s))

/-- normalize_text from both source files: a non-string value maps to
the empty string, a string is upper-cased, whitespace-compressed and
stripped. -/
def normalize_text : PyCell → Txt
  | .str s => normalizeTxt s
  | _ => []

/-- A GL row as read by categorize_gl: the two fields it consults
(absent when the column is missing from the frame) plus the Foreign
Amount used by the summary step, modelled as an exact integer. -/
structure GLRow where
  source : Option PyCell
  desc : Option PyCell
  amount : Int

/-- row.get(key, '') : the cell when present, the empty string otherwise. -/
def getCell (c : Option PyCell) : PyCell := c.getD (.str [])

/-- The rule chain of categorize_gl (gl_bank_agentic_model.py, lines
14-30) as a function of the two upper-cased fields; rule 6 tests only
"H11". -/
def glLabelOf (source desc : Txt) : Txt :=
  if pyIn "117".data desc then "117".data
  else if pyIn "153".data desc then "153".data
  else if pyIn "119".data desc then "119".data
  else if pyIn "NC BANK".data desc then "NC Bank".data
  else if pyIn "AP".data source then "AP".data
  else if pyIn "H11".data source then "TAX".data
  else "UNMATCHED".data

/-- categorize_gl of gl_bank_agentic_model.py: str() both fields (with
default ''), upper-case, run the rule chain. -/
def categorize_gl (row : GLRow) : Txt :=
  glLabelOf (pyUpper (pyStr (getCell row.source))) (pyUpper (pyStr (getCell row.desc)))

/-- The rule chain of categorize_gl in GL_BANK_LANGCHAIN.py (lines
15-31); rule 6 tests "H11" or "TAX". -/
def glLabelOf_lc (source desc : Txt) : Txt :=
  if pyIn "117".data desc then "117".data
  else if pyIn "153".data desc then "153".data
  else if pyIn "119".data desc then "119".data
  else if pyIn "NC BANK".data desc then "NC Bank".data
  else if pyIn "AP".data source then "AP".data
  else if pyIn "H11".data source || pyIn "TAX".data source then "TAX".data
  else "UNMATCHED".data

/-- categorize_gl of GL_BANK_LANGCHAIN.py. -/
def categorize_gl_lc (row : GLRow) : Txt :=
  glLabelOf_lc (pyUpper (pyStr (getCell row.source))) (pyUpper (pyStr (getCell row.desc)))

/-- A raw bank row: an association of column names to cell values. -/
abbrev RawRow := List (Txt × PyCell)

/-- row.get(col, '') on a raw row: first cell stored under the column
name, the empty string when the column is absent. -/
def rowGet (r : RawRow) (k : Txt) : PyCell :=
  match r.find? (fun p => decide (p.1 = k)) with
  | some p => p.2
  | none => .str []

/-- The NC Bank keyword set (identical in both files). -/
def nc_keywords : List Txt :=
  ["INDN:SETT-BATCH".data, "3351637714".data, "CO ID:3351637714".data, "CCD".data]

/-- The 119 keyword list (identical in both files). -/
def keywords_119 : List Txt :=
  ["BNF:HERFF JONES LLC 4501 WEST 62ND STREET INDIANAPOLIS".data,
   "BNF BK:PNC BANK NATIONAL".data,
   "24295001305".data,
   "HERFF JONES LLC OPERATING ACCOUNT 4501".data,
   "JPMORGAN CHASE".data,
   "SND BK:WELLS FARGO BANK".data,
   "WELLS FARGO SWEEP".data,
   "24354001505".data,
   "JPMORGAN CHASE BANK".data]

/-- The AP keyword list (identical in both files). -/
def ap_words : List Txt :=
  ["CORP PMT".data, "VARSITY".data, "GOODS".data, "INV".data,
   "INTL OUT DATE:".data, "POP".data, "BALBOA".data, "VISION GEMS".data]

/-- Rule 1 of categorize_bank: T contains every NC Bank keyword. -/
def ncMatch (T : Txt) : Bool := nc_keywords.all (fun k => pyIn k T)

/-- Rule 2 of categorize_bank: T contains some 119 keyword. -/
def r119Match (T : Txt) : Bool := keywords_119.any (fun k => pyIn k T)

/-- Rule 3 of categorize_bank: T contains "TRSF" or "CUR". -/
def r117Match (T : Txt) : Bool := pyIn "TRSF".data T || pyIn "CUR".data T

/-- Rule 4 of categorize_bank: T contains "BNF:LSC COMMUNICATIONS". -/
def r153Match (T : Txt) : Bool := pyIn "BNF:LSC COMMUNICATIONS".data T

/-- Rule 5 of categorize_bank: the three-way AP disjunction. -/
def apMatch (T I : Txt) : Bool :=
  (decide (I = "DETAIL DEBITS".data) && ap_words.any (fun w => pyIn w T)) ||
  (pyStarts "WIRE TYPE".data T && pyIn "INV".data T) ||
  (pyIn "ACH DETAIL RETURN CO ID:5351637714 CCD".data T && decide (I = "DETAIL CREDITS".data))

/-- Rule 6 of categorize_bank: a TAX marker in T and type Detail Debits. -/
def taxMatch (T I : Txt) : Bool :=
  (pyIn "TAX ".data T || pyIn "TAXPAY".data T) && decide (I = "DETAIL DEBITS".data)

/-- The rule chain of categorize_bank (gl_bank_agentic_model.py, lines
38-73) as a function of the normalized text T and normalized type I. -/
def bankLabelOf (T I : Txt) : Txt :=
  if ncMatch T then "NC Bank".data
  else if r119Match T then "119".data
  else if r117Match T then "117".data
  else if r153Match T then "153".data
  else if apMatch T I then "AP".data
  else if taxMatch T I then "TAX".data
  else "UNMATCHED".data

/-- categorize_bank of gl_bank_agentic_model.py: fetch the two resolved
cells with default '', normalize both, run the rule chain. -/
def categorize_bank (row : RawRow) (col_text col_type : Txt) : Txt :=
  bankLabelOf (normalize_text (rowGet row col_text)) (normalize_text (rowGet row col_type))

/-- The rule chain of categorize_bank in GL_BANK_LANGCHAIN.py (lines
39-72); the body is textually identical to the other file. -/
def bankLabelOf_lc (T I : Txt) : Txt :=
  if ncMatch T then "NC Bank".data
  else if r119Match T then "119".data
  else if r117Match T then "117".data
  else if r153Match T then "153".data
  else if apMatch T I then "AP".data
  else if taxMatch T I then "TAX".data
  else "UNMATCHED".data

/-- categorize_bank of GL_BANK_LANGCHAIN.py. -/
def categorize_bank_lc (row : RawRow) (col_text col_type : Txt) : Txt :=
  bankLabelOf_lc (normalize_text (rowGet row col_text)) (normalize_text (rowGet row col_type))

/-- key.replace(' ', '').lower() as used by find_col on both the key
and each candidate column name. -/
def stripSpacesLower (s : Txt) : Txt :=
  (s.filter (fun c => decide (c ≠ ' '))).map Char.toLower

/-- find_col from both source files: first column whose space-stripped,
lower-cased name contains the space-stripped, lower-cased key. -/
def find_col (columns : List Txt) (key : Txt) : Option Txt :=
  columns.find? (fun c => pyIn (stripSpacesLower key) (stripSpacesLower c))

/-- The closed set of category labels. -/
def labelSet : List Txt :=
  ["117".data, "119".data, "153".data, "NC Bank".data,
   "AP".data, "TAX".data, "UNMATCHED".data]

/-- An ordered classification rule: a predicate over the two consulted
texts, and the label it assigns. -/
abbrev Rule := (Txt → Txt → Bool) × Txt

/-- First-match-wins evaluation of an ordered rule chain, UNMATCHED
when no rule fires: the reading of the classifiers given in the spec. -/
def chainLabel (rules : List Rule) (x y : Txt) : Txt :=
  match rules.find? (fun r => r.1 x y) with
  | some r => r.2
  | none => "UNMATCHED".data

/-- The bank rule chain in the order of the source: NC Bank, 119, 117,
153, AP, TAX. -/
def bankRules : List Rule :=
  [(fun T _ => ncMatch T, "NC Bank".data),
   (fun T _ => r119Match T, "119".data),
   (fun T _ => r117Match T, "117".data),
   (fun T _ => r153Match T, "153".data),
   (fun T I => apMatch T I, "AP".data),
   (fun T I => taxMatch T I, "TAX".data)]

/-- The GL rule chain of gl_bank_agentic_model.py in source order, over
the pair (source, desc); rule 6 tests only "H11". -/
def glRules : List Rule :=
  [(fun _ d => pyIn "117".data d, "117".data),
   (fun _ d => pyIn "153".data d, "153".data),
   (fun _ d => pyIn "119".data d, "119".data),
   (fun _ d => pyIn "NC BANK".data d, "NC Bank".data),
   (fun s _ => pyIn "AP".data s, "AP".data),
   (fun s _ => pyIn "H11".data s, "TAX".data)]

/-- The GL rule chain of GL_BANK_LANGCHAIN.py; rule 6 tests "H11" or
"TAX". -/
def glRules_lc : List Rule :=
  [(fun _ d => pyIn "117".data d, "117".data),
   (fun _ d => pyIn "153".data d, "153".data),
   (fun _ d => pyIn "119".data d, "119".data),
   (fun _ d => pyIn "NC BANK".data d, "NC Bank".data),
   (fun s _ => pyIn "AP".data s, "AP".data),
   (fun s _ => pyIn "H11".data s || pyIn "TAX".data s, "TAX".data)]

/-- Numeric content of a cell for the summary sums; a non-numeric
amount contributes 0, per the spec recovery rule for malformed amounts. -/
def cellAmount : PyCell → Int
  | .num n => n
  | _ => 0

/-- groupby(label).sum() over labelled amounts: one entry per distinct
label, carrying the sum of the amounts bearing that label. -/
def groupSum (rows : List (Txt × Int)) : List (Txt × Int) :=
  ((rows.map Prod.fst).dedup).map
    (fun k => (k, ((rows.filter (fun p => decide (p.1 = k))).map Prod.snd).sum))

/-- Index lookup in a grouped table. -/
def lookupVal (g : List (Txt × Int)) (k : Txt) : Option Int :=
  match g.find? (fun p => decide (p.1 = k)) with
  | some p => some p.2
  | none => none

/-- pd.concat of the two grouped sums on the union of their labels,
followed by fillna(0): one summary row per label appearing on either
side, a missing side contributing 0.  Row order is modelled as first
appearance (the source leaves the order to pandas). -/
def summarize (gl bank : List (Txt × Int)) : List (Txt × Int × Int) :=
  (((groupSum gl).map Prod.fst ++ (groupSum bank).map Prod.fst).dedup).map
    (fun c => (c, (lookupVal (groupSum gl) c).getD 0, (lookupVal (groupSum bank) c).getD 0))

/-- Python ", ".join over a list of texts. -/
def joinSep (sep : Txt) : List Txt → Txt
  | [] => []
  | [w] => w
  | w :: ws => w ++ sep ++ joinSep sep ws

/-- Python repr of the column list in the error message, with the
quotation marks around each name omitted (they carry no information
relevant to the claims). -/
def pyListRepr (cols : List Txt) : Txt :=
  '[' :: joinSep ", ".data cols ++ [']']

/-- The error text of gl_bank_agentic_model.py line 113: it interpolates
only the actual column list, not the key that failed to resolve. -/
def bankColsMsg (cols : List Txt) : Txt :=
  "Could not detect needed columns in Bank file. Columns found: ".data ++ pyListRepr cols

/-- Everything the pipeline surfaces on success. -/
structure PipelineOut where
  glLabeled : List (GLRow × Txt)
  bankLabeled : List (RawRow × Txt)
  summary : List (Txt × Int × Int)

/-- The processing pipeline of gl_bank_agentic_model.py lines 100-122:
label the GL rows, resolve the three bank columns, halt with the error
message when any is unresolved (st.stop), otherwise label the bank rows
and build the summary. -/
def runPipeline (gl : List GLRow) (bankCols : List Txt) (bank : List RawRow) :
    Except Txt PipelineOut :=
  let glLabeled := gl.map (fun r => (r, categorize_gl r))
  match find_col bankCols "Text".data, find_col bankCols "Data Type".data,
        find_col bankCols "Revsd amt".data with
  | some ct, some cy, some ca =>
    let bankLabeled := bank.map (fun r => (r, categorize_bank r ct cy))
    Except.ok
      ⟨glLabeled, bankLabeled,
       summarize (glLabeled.map (fun p => (p.2, p.1.amount)))
         (bankLabeled.map (fun p => (p.2, cellAmount (rowGet p.1 ca))))⟩
  | _, _, _ => Except.error (bankColsMsg bankCols)

/-- The whitespace-separated words of a text: its maximal runs of
non-whitespace characters, in order.  Spec-side notion used to state
the contract of normalize_text. -/
def wordsOf : Txt → List Txt
  | [] => []
  | [c] => if c.isWhitespace then [] else [[c]]
  | a :: b :: t =>
    if a.isWhitespace then wordsOf (b :: t)
    else if b.isWhitespace then [a] :: wordsOf (b :: t)
    else match wordsOf (b :: t) with
      | [] => [[a]]
      | w :: ws => (a :: w) :: ws

/-- Words rejoined with a single space between consecutive words. -/
def joinWS : List Txt → Txt
  | [] => []
  | [w] => w
  | w :: ws => w ++ ' ' :: joinWS ws

/-- The spec contract for normalize_text on strings, rendered directly:
case-fold to uppercase, then collapse every whitespace run to one space
and trim the ends, i.e. the words of the upper-cased text rejoined by
single spaces. -/
def specNormalize (s : Txt) : Txt := joinWS (wordsOf (pyUpper s))

/-- Char.ofNat applied to a valid scalar value decodes back to it. -/
theorem charToNat_ofNat_valid (n : Nat) (h : n.isValidChar) : (Char.ofNat n).toNat = n := by
  simp [Char.ofNat, dif_pos h, Char.ofNatAux, Char.toNat, UInt32.toNat, BitVec.toNat_ofNatLt]

/-- Characters are equal exactly when their scalar values are. -/
theorem char_eq_iff_toNat (a b : Char) : a = b ↔ a.toNat = b.toNat := by
  constructor
  · intro h
    rw [h]
  · intro h
    have h2 : Char.ofNat a.toNat = Char.ofNat b.toNat := by rw [h]
    rwa [Char.ofNat_toNat, Char.ofNat_toNat] at h2

/-- Whitespace characterised by scalar value. -/
theorem isWS_eq_true_iff (c : Char) :
    c.isWhitespace = true ↔ (c.toNat = 32 ∨ c.toNat = 9 ∨ c.toNat = 13 ∨ c.toNat = 10) := by
  unfold Char.isWhitespace
  simp only [Bool.or_eq_true, decide_eq_true_eq]
  rw [char_eq_iff_toNat, char_eq_iff_toNat, char_eq_iff_toNat, char_eq_iff_toNat]
  have f1 : (' '.val.toNat) = 32 := rfl
  have f2 : ('\t'.val.toNat) = 9 := rfl
  have f3 : ('\r'.val.toNat) = 13 := rfl
  have f4 : ('\n'.val.toNat) = 10 := rfl
  unfold Char.toNat
  rw [f1, f2, f3, f4]
  tauto

/-- Char.toUpper is idempotent. -/
theorem toUpper_toUpper (c : Char) : c.toUpper.toUpper = c.toUpper := by
  unfold Char.toUpper
  by_cases h : c.toNat ≥ 97 ∧ c.toNat ≤ 122
  · have hv : (c.toNat - 32).isValidChar := by
      constructor
      omega
    rw [if_pos h, charToNat_ofNat_valid _ hv, if_neg (by omega)]
  · rw [if_neg h, if_neg h]

/-- Char.toUpper preserves whitespace status. -/
theorem isWS_toUpper (c : Char) : (c.toUpper).isWhitespace = c.isWhitespace := by
  unfold Char.toUpper
  by_cases h : c.toNat ≥ 97 ∧ c.toNat ≤ 122
  · rw [if_pos h]
    have hv : (c.toNat - 32).isValidChar := by
      constructor
      omega
    have h2 : (Char.ofNat (c.toNat - 32)).toNat = c.toNat - 32 := charToNat_ofNat_valid _ hv
    have hl : (Char.ofNat (c.toNat - 32)).isWhitespace = false := by
      rw [Bool.eq_false_iff]
      intro hw
      rw [isWS_eq_true_iff] at hw
      omega
    have hr : c.isWhitespace = false := by
      rw [Bool.eq_false_iff]
      intro hw
      rw [isWS_eq_true_iff] at hw
      omega
    rw [hl, hr]
  · rw [if_neg h]

/-- The space character is whitespace. -/
theorem isWS_space : (' ').isWhitespace = true := by decide

/-- A cons headed by a non-whitespace character squeezes pointwise. -/
theorem squeezeWS_cons_of_not_ws (b : Char) (t : Txt) (h : b.isWhitespace = false) :
    squeezeWS (b :: t) = b :: squeezeWS t := by
  cases t with
  | nil => simp [squeezeWS, h]
  | cons c t => simp [squeezeWS, h]

/-- A cons headed by a whitespace character squeezes to a single space
followed by the squeeze of the tail with its leading whitespace gone. -/
theorem squeezeWS_cons_of_ws :
    ∀ (t : Txt) (a : Char), a.isWhitespace = true →
      squeezeWS (a :: t) = ' ' :: squeezeWS (t.dropWhile Char.isWhitespace)
  | [], a, h => by simp [squeezeWS, h]
  | b :: t, a, h => by
    by_cases hb : b.isWhitespace
    · have ih := squeezeWS_cons_of_ws t b hb
      calc squeezeWS (a :: b :: t) = squeezeWS (b :: t) := by simp [squeezeWS, h, hb]
        _ = ' ' :: squeezeWS (t.dropWhile Char.isWhitespace) := ih
        _ = ' ' :: squeezeWS ((b :: t).dropWhile Char.isWhitespace) := by
              rw [List.dropWhile_cons, if_pos hb]
    · rw [Bool.not_eq_true] at hb
      calc squeezeWS (a :: b :: t) = ' ' :: squeezeWS (b :: t) := by simp [squeezeWS, h, hb]
        _ = ' ' :: squeezeWS ((b :: t).dropWhile Char.isWhitespace) := by
              rw [List.dropWhile_cons, if_neg (by simp [hb])]

/-- Dropping a leading whitespace character does not change the words. -/
theorem wordsOf_cons_of_ws (t : Txt) (a : Char) (h : a.isWhitespace = true) :
    wordsOf (a :: t) = wordsOf t := by
  cases t with
  | nil => simp [wordsOf, h]
  | cons b t => simp [wordsOf, h]

/-- A text starting with a non-whitespace character has at least one word. -/
theorem wordsOf_ne_nil (t : Txt) (b : Char) (h : b.isWhitespace = false) :
    wordsOf (b :: t) ≠ [] := by
  cases t with
  | nil => simp [wordsOf, h]
  | cons c t =>
    by_cases hc : c.isWhitespace
    · simp [wordsOf, h, hc]
    · rw [Bool.not_eq_true] at hc
      cases hw : wordsOf (c :: t) with
      | nil => simp [wordsOf, h, hc, hw]
      | cons w ws => simp [wordsOf, h, hc, hw]

/-- Every word produced by wordsOf is nonempty and whitespace-free. -/
theorem wordsOf_good :
    ∀ (l : Txt), ∀ w ∈ wordsOf l, w ≠ [] ∧ ∀ c ∈ w, c.isWhitespace = false
  | [] => by simp [wordsOf]
  | [a] => by
    by_cases h : a.isWhitespace
    · simp [wordsOf, h]
    · rw [Bool.not_eq_true] at h
      simp [wordsOf, h]
  | a :: b :: t => by
    have ih := wordsOf_good (b :: t)
    by_cases ha : a.isWhitespace
    · rw [wordsOf_cons_of_ws (b :: t) a ha]
      exact ih
    · rw [Bool.not_eq_true] at ha
      by_cases hb : b.isWhitespace
      · intro w hw
        rw [show wordsOf (a :: b :: t) = [a] :: wordsOf (b :: t) by
          simp [wordsOf, ha, hb]] at hw
        rcases List.mem_cons.mp hw with h1 | h2
        · subst h1
          refine ⟨by simp, ?_⟩
          intro c hc
          rw [List.mem_singleton] at hc
          subst hc
          exact ha
        · exact ih w h2
      · rw [Bool.not_eq_true] at hb
        cases hw2 : wordsOf (b :: t) with
        | nil => exact absurd hw2 (wordsOf_ne_nil t b hb)
        | cons w0 ws0 =>
          intro w hw
          rw [show wordsOf (a :: b :: t) = (a :: w0) :: ws0 by
            simp [wordsOf, ha, hb, hw2]] at hw
          rcases List.mem_cons.mp hw with h1 | h2
          · subst h1
            have hg := ih w0 (by rw [hw2]; exact List.mem_cons_self _ _)
            refine ⟨by simp, ?_⟩
            intro c hc
            rcases List.mem_cons.mp hc with h3 | h4
            · subst h3
              exact ha
            · exact hg.2 c h4
          · exact ih w (by rw [hw2]; exact List.mem_cons_of_mem _ h2)

/-- joinWS past a character prepended to the first word. -/
theorem joinWS_prepend (a : Char) (w : Txt) (ws : List Txt) :
    joinWS ((a :: w) :: ws) = a :: joinWS (w :: ws) := by
  cases ws with
  | nil => rfl
  | cons x xs => simp [joinWS]

/-- joinWS of a nonempty list of nonempty words is nonempty. -/
theorem joinWS_ne_nil (ws : List Txt) (hne : ws ≠ []) (hw : ∀ w ∈ ws, w ≠ []) :
    joinWS ws ≠ [] := by
  cases ws with
  | nil => exact absurd rfl hne
  | cons w rest =>
    have hw0 : w ≠ [] := hw w (List.mem_cons_self _ _)
    cases rest with
    | nil => simpa [joinWS] using hw0
    | cons x xs =>
      simp only [joinWS]
      intro hcontra
      rcases List.append_eq_nil.mp hcontra with ⟨h1, _⟩
      exact hw0 h1

/-- dropWhile across an append. -/
theorem dropWhile_append_eq {α : Type} [DecidableEq α] (p : α → Bool) :
    ∀ (u v : List α),
      (u ++ v).dropWhile p =
        if u.dropWhile p = [] then v.dropWhile p else u.dropWhile p ++ v
  | [], v => by simp
  | a :: u, v => by
    by_cases h : p a
    · have ih := dropWhile_append_eq p u v
      simp only [List.cons_append, List.dropWhile_cons, h, if_true]
      exact ih
    · rw [Bool.not_eq_true] at h
      simp [List.dropWhile_cons, h]

/-- dropTrailWS on a cons. -/
theorem dropTrailWS_cons (c : Char) (y : Txt) :
    dropTrailWS (c :: y) =
      if dropTrailWS y = [] then (if c.isWhitespace then [] else [c])
      else c :: dropTrailWS y := by
  have hrev : (c :: y).reverse = y.reverse ++ [c] := by simp
  unfold dropTrailWS
  rw [hrev, dropWhile_append_eq]
  by_cases hy : y.reverse.dropWhile Char.isWhitespace = []
  · rw [if_pos hy, if_pos (by simp [hy])]
    by_cases hc : c.isWhitespace
    · simp [List.dropWhile_cons, hc]
    · rw [Bool.not_eq_true] at hc
      simp [List.dropWhile_cons, hc]
  · rw [if_neg hy, if_neg (by simp [hy])]
    simp

/-- dropTrailWS past a non-whitespace head. -/
theorem dropTrailWS_cons_of_not_ws (c : Char) (y : Txt) (h : c.isWhitespace = false) :
    dropTrailWS (c :: y) = c :: dropTrailWS y := by
  rw [dropTrailWS_cons]
  by_cases hy : dropTrailWS y = []
  · rw [if_pos hy, if_neg (by simp [h]), hy]
  · rw [if_neg hy]

/-- stripWS absorbs a leading space. -/
theorem stripWS_space_cons (x : Txt) : stripWS (' ' :: x) = stripWS x := by
  unfold stripWS
  rw [List.dropWhile_cons, if_pos isWS_space]

/-- stripWS past a non-whitespace head only trims the tail. -/
theorem stripWS_cons_of_not_ws (c : Char) (x : Txt) (h : c.isWhitespace = false) :
    stripWS (c :: x) = c :: dropTrailWS x := by
  unfold stripWS
  rw [List.dropWhile_cons, if_neg (by simp [h]), dropTrailWS_cons_of_not_ws c x h]

/-- A list surviving dropWhile untouched also survives stripWS up to its
trailing end. -/
theorem stripWS_eq_dropTrail (x : Txt) (h : x.dropWhile Char.isWhitespace = x) :
    stripWS x = dropTrailWS x := by
  unfold stripWS
  rw [h]

/-- The head of a dropWhile result fails the predicate. -/
theorem dropWhile_head_false {α : Type} (p : α → Bool) :
    ∀ (l : List α) (c : α) (r : List α), l.dropWhile p = c :: r → p c = false
  | [], c, r => by simp
  | x :: xs, c, r => by
    by_cases h : p x
    · rw [List.dropWhile_cons, if_pos h]
      exact dropWhile_head_false p xs c r
    · rw [Bool.not_eq_true] at h
      rw [List.dropWhile_cons, if_neg (by simp [h])]
      intro he
      cases he
      exact h

/-- Core normalization fact: compressing every whitespace run to one
space and then stripping the ends equals rejoining the whitespace
separated words with single spaces. -/
theorem strip_squeeze_eq : ∀ (l : Txt), stripWS (squeezeWS l) = joinWS (wordsOf l)
  | [] => by decide
  | [a] => by
    by_cases h : a.isWhitespace
    · rw [show squeezeWS [a] = [' '] by simp [squeezeWS, h],
          show wordsOf [a] = [] by simp [wordsOf, h]]
      decide
    · rw [Bool.not_eq_true] at h
      rw [show squeezeWS [a] = [a] by simp [squeezeWS, h],
          show wordsOf [a] = [[a]] by simp [wordsOf, h],
          stripWS_cons_of_not_ws a [] h]
      rfl
  | a :: b :: t => by
    have ih := strip_squeeze_eq (b :: t)
    by_cases ha : a.isWhitespace
    · by_cases hb : b.isWhitespace
      · rw [show squeezeWS (a :: b :: t) = squeezeWS (b :: t) by simp [squeezeWS, ha, hb],
            wordsOf_cons_of_ws (b :: t) a ha]
        exact ih
      · rw [Bool.not_eq_true] at hb
        rw [show squeezeWS (a :: b :: t) = ' ' :: squeezeWS (b :: t) by
              simp [squeezeWS, ha, hb],
            stripWS_space_cons, wordsOf_cons_of_ws (b :: t) a ha]
        exact ih
    · rw [Bool.not_eq_true] at ha
      rw [squeezeWS_cons_of_not_ws a (b :: t) ha, stripWS_cons_of_not_ws _ _ ha]
      by_cases hb : b.isWhitespace
      · have hw : wordsOf (a :: b :: t) = [a] :: wordsOf (b :: t) := by
          simp [wordsOf, ha, hb]
        have hsq : squeezeWS (b :: t) = ' ' :: squeezeWS (t.dropWhile Char.isWhitespace) :=
          squeezeWS_cons_of_ws t b hb
        have hyhead :
            (squeezeWS (t.dropWhile Char.isWhitespace)).dropWhile Char.isWhitespace
              = squeezeWS (t.dropWhile Char.isWhitespace) := by
          cases ht : t.dropWhile Char.isWhitespace with
          | nil => decide
          | cons c r =>
            have hc : c.isWhitespace = false := dropWhile_head_false _ t c r ht
            rw [squeezeWS_cons_of_not_ws c r hc, List.dropWhile_cons, if_neg (by simp [hc])]
        have hihy : dropTrailWS (squeezeWS (t.dropWhile Char.isWhitespace))
            = joinWS (wordsOf (b :: t)) := by
          rw [hsq, stripWS_space_cons,
              stripWS_eq_dropTrail _ hyhead] at ih
          exact ih
        rw [hw, hsq, dropTrailWS_cons, if_pos isWS_space]
        by_cases hJ : dropTrailWS (squeezeWS (t.dropWhile Char.isWhitespace)) = []
        · rw [if_pos hJ]
          rw [hJ] at hihy
          cases hrest : wordsOf (b :: t) with
          | nil => rfl
          | cons w0 ws0 =>
            exfalso
            rw [hrest] at hihy
            apply joinWS_ne_nil (w0 :: ws0) (by simp) ?_ hihy.symm
            intro w hwmem
            exact (wordsOf_good (b :: t) w (by rw [hrest]; exact hwmem)).1
        · rw [if_neg hJ]
          rw [hihy] at hJ ⊢
          cases hrest : wordsOf (b :: t) with
          | nil =>
            rw [hrest] at hJ
            exact absurd rfl hJ
          | cons w0 ws0 => simp [joinWS]
      · rw [Bool.not_eq_true] at hb
        cases hw2 : wordsOf (b :: t) with
        | nil => exact absurd hw2 (wordsOf_ne_nil t b hb)
        | cons w0 ws0 =>
          have hw : wordsOf (a :: b :: t) = (a :: w0) :: ws0 := by
            simp [wordsOf, ha, hb, hw2]
          have hhead : (squeezeWS (b :: t)).dropWhile Char.isWhitespace
              = squeezeWS (b :: t) := by
            rw [squeezeWS_cons_of_not_ws b t hb, List.dropWhile_cons, if_neg (by simp [hb])]
          have hih2 : dropTrailWS (squeezeWS (b :: t)) = joinWS (w0 :: ws0) := by
            rw [← hw2, ← stripWS_eq_dropTrail _ hhead]
            exact ih
          rw [hw, joinWS_prepend, hih2]

/-- dropWhile is the identity when no element satisfies the predicate. -/
theorem dropWhile_eq_self_of_all {α : Type} (p : α → Bool) :
    ∀ (l : List α), (∀ c ∈ l, p c = false) → l.dropWhile p = l
  | [], _ => rfl
  | c :: t, h => by
    rw [List.dropWhile_cons, if_neg (by simp [h c (List.mem_cons_self _ _)])]

/-- Mapping a whitespace-preserving, space-fixing function commutes with
whitespace compression. -/
theorem squeezeWS_map (f : Char → Char)
    (hws : ∀ c, (f c).isWhitespace = c.isWhitespace) (hsp : f ' ' = ' ') :
    ∀ (l : Txt), List.map f (squeezeWS l) = squeezeWS (List.map f l)
  | [] => rfl
  | [c] => by
    by_cases h : c.isWhitespace
    · rw [show squeezeWS [c] = [' '] by simp [squeezeWS, h],
          show List.map f [c] = [f c] from rfl,
          show squeezeWS [f c] = [' '] by simp [squeezeWS, hws, h]]
      simp [hsp]
    · rw [Bool.not_eq_true] at h
      rw [show squeezeWS [c] = [c] by simp [squeezeWS, h],
          show List.map f [c] = [f c] from rfl,
          show squeezeWS [f c] = [f c] by simp [squeezeWS, hws, h]]
  | a :: b :: t => by
    have ih := squeezeWS_map f hws hsp (b :: t)
    have e1 : List.map f (a :: b :: t) = f a :: f b :: List.map f t := rfl
    by_cases ha : a.isWhitespace
    · by_cases hb : b.isWhitespace
      · rw [show squeezeWS (a :: b :: t) = squeezeWS (b :: t) by simp [squeezeWS, ha, hb],
            ih, e1,
            show squeezeWS (f a :: f b :: List.map f t) = squeezeWS (f b :: List.map f t) by
              simp [squeezeWS, hws, ha, hb]]
        rfl
      · rw [Bool.not_eq_true] at hb
        rw [show squeezeWS (a :: b :: t) = ' ' :: squeezeWS (b :: t) by
              simp [squeezeWS, ha, hb],
            e1,
            show squeezeWS (f a :: f b :: List.map f t)
                = ' ' :: squeezeWS (f b :: List.map f t) by simp [squeezeWS, hws, ha, hb],
            show List.map f (' ' :: squeezeWS (b :: t))
                = f ' ' :: List.map f (squeezeWS (b :: t)) from rfl,
            hsp, ih]
        rfl
    · rw [Bool.not_eq_true] at ha
      rw [squeezeWS_cons_of_not_ws a (b :: t) ha, e1,
          show squeezeWS (f a :: f b :: List.map f t)
              = f a :: squeezeWS (f b :: List.map f t) from
            squeezeWS_cons_of_not_ws (f a) (f b :: List.map f t) (by rw [hws]; exact ha),
          show List.map f (a :: squeezeWS (b :: t))
              = f a :: List.map f (squeezeWS (b :: t)) from rfl,
          ih]
      rfl

/-- Mapping a whitespace-preserving function commutes with dropWhile
on whitespace. -/
theorem dropWhile_map_ws (f : Char → Char)
    (hws : ∀ c, (f c).isWhitespace = c.isWhitespace) :
    ∀ (l : Txt),
      List.map f (l.dropWhile Char.isWhitespace)
        = (List.map f l).dropWhile Char.isWhitespace
  | [] => rfl
  | c :: t => by
    by_cases h : c.isWhitespace
    · rw [List.dropWhile_cons, if_pos h,
          show List.map f (c :: t) = f c :: List.map f t from rfl,
          List.dropWhile_cons, if_pos (by rw [hws]; exact h)]
      exact dropWhile_map_ws f hws t
    · rw [Bool.not_eq_true] at h
      rw [List.dropWhile_cons, if_neg (by simp [h]),
          show List.map f (c :: t) = f c :: List.map f t from rfl,
          List.dropWhile_cons, if_neg (by simp [hws, h])]

/-- Mapping a whitespace-preserving function commutes with the trailing
trim. -/
theorem dropTrailWS_map_ws (f : Char → Char)
    (hws : ∀ c, (f c).isWhitespace = c.isWhitespace) (l : Txt) :
    List.map f (dropTrailWS l) = dropTrailWS (List.map f l) := by
  unfold dropTrailWS
  rw [List.map_reverse, dropWhile_map_ws f hws, List.map_reverse]

/-- Mapping a whitespace-preserving function commutes with stripWS. -/
theorem stripWS_map_ws (f : Char → Char)
    (hws : ∀ c, (f c).isWhitespace = c.isWhitespace) (l : Txt) :
    List.map f (stripWS l) = stripWS (List.map f l) := by
  unfold stripWS
  rw [dropTrailWS_map_ws f hws, dropWhile_map_ws f hws]

/-- Upper-casing is idempotent on texts. -/
theorem pyUpper_pyUpper (l : Txt) : pyUpper (pyUpper l) = pyUpper l := by
  unfold pyUpper
  rw [List.map_map]
  apply List.map_congr_left
  intro a _
  exact toUpper_toUpper a

/-- Upper-casing commutes with whitespace compression. -/
theorem pyUpper_squeezeWS (l : Txt) : pyUpper (squeezeWS l) = squeezeWS (pyUpper l) :=
  squeezeWS_map Char.toUpper isWS_toUpper (by decide) l

/-- Upper-casing commutes with stripWS. -/
theorem pyUpper_stripWS (l : Txt) : pyUpper (stripWS l) = stripWS (pyUpper l) :=
  stripWS_map_ws Char.toUpper isWS_toUpper l

/-- A normalized text is already all upper case. -/
theorem pyUpper_normalizeTxt (s : Txt) : pyUpper (normalizeTxt s) = normalizeTxt s := by
  show pyUpper (stripWS (squeezeWS (pyUpper s))) = stripWS (squeezeWS (pyUpper s))
  rw [pyUpper_stripWS, pyUpper_squeezeWS, pyUpper_pyUpper]

/-- Whitespace compression passes over a whitespace-free block. -/
theorem squeezeWS_append_nows :
    ∀ (w z : Txt), (∀ c ∈ w, c.isWhitespace = false) →
      squeezeWS (w ++ z) = w ++ squeezeWS z
  | [], z, _ => rfl
  | c :: w, z, h => by
    have hc : c.isWhitespace = false := h c (List.mem_cons_self _ _)
    rw [List.cons_append, squeezeWS_cons_of_not_ws c (w ++ z) hc,
        squeezeWS_append_nows w z (fun d hd => h d (List.mem_cons_of_mem _ hd))]
    rfl

/-- Whitespace compression fixes a single-space join of nonempty
whitespace-free words. -/
theorem squeezeWS_joinWS :
    ∀ (ws : List Txt), (∀ w ∈ ws, w ≠ [] ∧ ∀ c ∈ w, c.isWhitespace = false) →
      squeezeWS (joinWS ws) = joinWS ws
  | [], _ => rfl
  | [w], h => by
    have h2 := (h w (List.mem_cons_self _ _)).2
    have h3 := squeezeWS_append_nows w [] h2
    rw [show joinWS [w] = w from rfl]
    simpa [squeezeWS] using h3
  | w :: x :: xs, h => by
    have hw := h w (List.mem_cons_self _ _)
    have hx := h x (List.mem_cons_of_mem _ (List.mem_cons_self _ _))
    have ih := squeezeWS_joinWS (x :: xs) (fun u hu => h u (List.mem_cons_of_mem _ hu))
    rw [show joinWS (w :: x :: xs) = w ++ ' ' :: joinWS (x :: xs) from rfl,
        squeezeWS_append_nows w (' ' :: joinWS (x :: xs)) hw.2]
    cases hxe : x with
    | nil => exact absurd hxe hx.1
    | cons c x2 =>
      subst hxe
      have hc : c.isWhitespace = false := hx.2 c (List.mem_cons_self _ _)
      have hj2 : joinWS ((c :: x2) :: xs) = c :: joinWS (x2 :: xs) := joinWS_prepend c x2 xs
      rw [hj2,
          show squeezeWS (' ' :: c :: joinWS (x2 :: xs))
              = ' ' :: squeezeWS (c :: joinWS (x2 :: xs)) by
            simp [squeezeWS, isWS_space, hc],
          ← hj2, ih]

/-- Trailing trim across an append. -/
theorem dropTrailWS_append (w z : Txt) :
    dropTrailWS (w ++ z) =
      if dropTrailWS z = [] then dropTrailWS w else w ++ dropTrailWS z := by
  unfold dropTrailWS
  rw [List.reverse_append, dropWhile_append_eq]
  by_cases hz : z.reverse.dropWhile Char.isWhitespace = []
  · rw [if_pos hz, if_pos (by simp [hz])]
  · rw [if_neg hz, if_neg (by simp [hz])]
    simp

/-- Trailing trim fixes a whitespace-free block. -/
theorem dropTrailWS_nows (w : Txt) (h : ∀ c ∈ w, c.isWhitespace = false) :
    dropTrailWS w = w := by
  unfold dropTrailWS
  rw [dropWhile_eq_self_of_all _ w.reverse (fun c hc => h c (List.mem_reverse.mp hc))]
  exact List.reverse_reverse w

/-- Trailing trim fixes a single-space join of nonempty whitespace-free
words. -/
theorem dropTrailWS_joinWS :
    ∀ (ws : List Txt), (∀ w ∈ ws, w ≠ [] ∧ ∀ c ∈ w, c.isWhitespace = false) →
      dropTrailWS (joinWS ws) = joinWS ws
  | [], _ => rfl
  | [w], h => by
    rw [show joinWS [w] = w from rfl]
    exact dropTrailWS_nows w (h w (List.mem_cons_self _ _)).2
  | w :: x :: xs, h => by
    have ih := dropTrailWS_joinWS (x :: xs) (fun u hu => h u (List.mem_cons_of_mem _ hu))
    have hne : joinWS (x :: xs) ≠ [] :=
      joinWS_ne_nil (x :: xs) (by simp)
        (fun u hu => (h u (List.mem_cons_of_mem _ hu)).1)
    rw [show joinWS (w :: x :: xs) = w ++ ' ' :: joinWS (x :: xs) from rfl,
        dropTrailWS_append]
    rw [dropTrailWS_cons, ih, if_neg hne]
    rw [if_neg (by simp)]

/-- stripWS fixes a single-space join of nonempty whitespace-free words. -/
theorem stripWS_joinWS (ws : List Txt)
    (h : ∀ w ∈ ws, w ≠ [] ∧ ∀ c ∈ w, c.isWhitespace = false) :
    stripWS (joinWS ws) = joinWS ws := by
  unfold stripWS
  have hlead : (joinWS ws).dropWhile Char.isWhitespace = joinWS ws := by
    cases ws with
    | nil => rfl
    | cons w rest =>
      have hw := h w (List.mem_cons_self _ _)
      cases hwe : w with
      | nil => exact absurd hwe hw.1
      | cons c w2 =>
        subst hwe
        have hc : c.isWhitespace = false := hw.2 c (List.mem_cons_self _ _)
        rw [joinWS_prepend, List.dropWhile_cons, if_neg (by simp [hc])]
  rw [hlead]
  exact dropTrailWS_joinWS ws h

/-- normalize idempotence at the text level. -/
theorem normalizeTxt_idem (s : Txt) : normalizeTxt (normalizeTxt s) = normalizeTxt s := by
  have hup : pyUpper (normalizeTxt s) = normalizeTxt s := pyUpper_normalizeTxt s
  have hrep : normalizeTxt s = joinWS (wordsOf (pyUpper s)) := strip_squeeze_eq (pyUpper s)
  have hgood := wordsOf_good (pyUpper s)
  calc normalizeTxt (normalizeTxt s)
      = stripWS (squeezeWS (pyUpper (normalizeTxt s))) := rfl
    _ = stripWS (squeezeWS (normalizeTxt s)) := by rw [hup]
    _ = stripWS (squeezeWS (joinWS (wordsOf (pyUpper s)))) := by rw [hrep]
    _ = stripWS (joinWS (wordsOf (pyUpper s))) := by
          rw [squeezeWS_joinWS _ hgood]
    _ = joinWS (wordsOf (pyUpper s)) := stripWS_joinWS _ hgood
    _ = normalizeTxt s := hrep.symm

/-- Claim C8: normalize_text is total by construction; every non-text
cell (None, NaN, a number — and an absent field arrives as the empty
string) maps to the empty text, and a text maps to its upper-casing
with every whitespace run collapsed to a single space and the ends
trimmed, i.e. to specNormalize. -/
theorem normalize_text_contract (c : PyCell) :
    normalize_text c = (match c with
      | .str s => specNormalize s
      | _ => []) := by
  cases c with
  | str s => exact strip_squeeze_eq (pyUpper s)
  | pyNone => rfl
  | nan => rfl
  | num n => rfl

/-- Claim C9: normalize_text is idempotent: renormalizing the text it
returns changes nothing, for string and non-string inputs alike. -/
theorem normalize_text_idem (c : PyCell) :
    normalize_text (.str (normalize_text c)) = normalize_text c := by
  cases c with
  | str s => exact normalizeTxt_idem s
  | pyNone => rfl
  | nan => rfl
  | num n => rfl

/-- The nested-if bank classifier equals first-match evaluation of the
ordered bank rule list. -/
theorem bankLabelOf_eq_chain (T I : Txt) : bankLabelOf T I = chainLabel bankRules T I := by
  unfold bankLabelOf chainLabel bankRules
  cases h1 : ncMatch T <;> cases h2 : r119Match T <;> cases h3 : r117Match T <;>
    cases h4 : r153Match T <;> cases h5 : apMatch T I <;> cases h6 : taxMatch T I <;>
    simp [List.find?, h1, h2, h3, h4, h5, h6]

/-- The nested-if GL classifier (agentic file) equals first-match
evaluation of its ordered rule list. -/
theorem glLabelOf_eq_chain (S D : Txt) : glLabelOf S D = chainLabel glRules S D := by
  unfold glLabelOf chainLabel glRules
  cases h1 : pyIn "117".data D <;> cases h2 : pyIn "153".data D <;>
    cases h3 : pyIn "119".data D <;> cases h4 : pyIn "NC BANK".data D <;>
    cases h5 : pyIn "AP".data S <;> cases h6 : pyIn "H11".data S <;>
    simp [List.find?, h1, h2, h3, h4, h5, h6]

/-- The nested-if GL classifier (langchain file) equals first-match
evaluation of its ordered rule list. -/
theorem glLabelOf_lc_eq_chain (S D : Txt) : glLabelOf_lc S D = chainLabel glRules_lc S D := by
  unfold glLabelOf_lc chainLabel glRules_lc
  cases h1 : pyIn "117".data D <;> cases h2 : pyIn "153".data D <;>
    cases h3 : pyIn "119".data D <;> cases h4 : pyIn "NC BANK".data D <;>
    cases h5 : pyIn "AP".data S <;> cases h6 : pyIn "H11".data S <;>
    cases h7 : pyIn "TAX".data S <;>
    simp [List.find?, h1, h2, h3, h4, h5, h6, h7]

/-- A bank row whose text matches rule 1 (all NC Bank keywords) and also
rule 5 (type Detail Debits with the AP word INV). -/
def rowNCAP : RawRow :=
  [("Text".data, .str "INDN:SETT-BATCH CO ID:3351637714 CCD INV".data),
   ("Data Type".data, .str "Detail Debits".data)]

/-- Claim C1: categorize_bank returns the label of the first rule of the
ordered chain NC Bank, 119, 117, 153, AP, TAX that fires on the
normalized text and type, UNMATCHED otherwise; in particular a row
passing the NC Bank keyword test is labelled NC Bank even when it also
satisfies the AP rule. -/
theorem categorize_bank_chain_order (row : RawRow) (ct cy : Txt) :
    categorize_bank row ct cy
      = chainLabel bankRules (normalize_text (rowGet row ct)) (normalize_text (rowGet row cy))
    ∧ (ncMatch (normalize_text (rowGet row ct)) = true →
        apMatch (normalize_text (rowGet row ct)) (normalize_text (rowGet row cy)) = true →
        categorize_bank row ct cy = "NC Bank".data) := by
  constructor
  · exact bankLabelOf_eq_chain _ _
  · intro h _
    show bankLabelOf _ _ = _
    unfold bankLabelOf
    rw [if_pos h]

/-- Witness for C1: a concrete row satisfying both rule 1 and rule 5 is
labelled NC Bank. -/
theorem categorize_bank_chain_order_witness :
    ncMatch (normalize_text (rowGet rowNCAP "Text".data)) = true
    ∧ apMatch (normalize_text (rowGet rowNCAP "Text".data))
        (normalize_text (rowGet rowNCAP "Data Type".data)) = true
    ∧ categorize_bank rowNCAP "Text".data "Data Type".data = "NC Bank".data :=
  ⟨by decide, by decide,
   (categorize_bank_chain_order rowNCAP "Text".data "Data Type".data).2 (by decide) (by decide)⟩

/-- The GL row of spec scenario 1. -/
def glScenRow : GLRow :=
  ⟨some (.str "AP-SYS".data), some (.str "payment batch 117 adj".data), 0⟩

/-- Claim C2: categorize_gl upper-cases Source and Journal Line
Description and returns the first matching rule of the ordered chain
117, 153, 119, NC BANK, AP, rule 6 (H11 only, or H11/TAX in the
langchain variant), UNMATCHED otherwise; the scenario row with an AP
source and a description containing 117 is labelled 117 in both
variants. -/
theorem categorize_gl_chain_order (row : GLRow) :
    categorize_gl row
      = chainLabel glRules (pyUpper (pyStr (getCell row.source)))
          (pyUpper (pyStr (getCell row.desc)))
    ∧ categorize_gl_lc row
      = chainLabel glRules_lc (pyUpper (pyStr (getCell row.source)))
          (pyUpper (pyStr (getCell row.desc)))
    ∧ categorize_gl glScenRow = "117".data
    ∧ categorize_gl_lc glScenRow = "117".data :=
  ⟨glLabelOf_eq_chain _ _, glLabelOf_lc_eq_chain _ _, by decide, by decide⟩

/-- The agentic GL chain only emits the seven labels. -/
theorem glLabelOf_mem (S D : Txt) : glLabelOf S D ∈ labelSet := by
  unfold glLabelOf labelSet
  split_ifs <;> simp

/-- The langchain GL chain only emits the seven labels. -/
theorem glLabelOf_lc_mem (S D : Txt) : glLabelOf_lc S D ∈ labelSet := by
  unfold glLabelOf_lc labelSet
  split_ifs <;> simp

/-- The agentic bank chain only emits the seven labels. -/
theorem bankLabelOf_mem (T I : Txt) : bankLabelOf T I ∈ labelSet := by
  unfold bankLabelOf labelSet
  split_ifs <;> simp

/-- The langchain bank chain only emits the seven labels. -/
theorem bankLabelOf_lc_mem (T I : Txt) : bankLabelOf_lc T I ∈ labelSet := by
  unfold bankLabelOf_lc labelSet
  split_ifs <;> simp

/-- Claim C3: both classifiers, in both source variants, are total Lean
functions (they cannot fail) and always answer one of the seven labels,
whatever the row holds — including absent, None, NaN or numeric fields. -/
theorem classify_total_label_set :
    (∀ row : GLRow, categorize_gl row ∈ labelSet ∧ categorize_gl_lc row ∈ labelSet)
    ∧ ∀ (row : RawRow) (ct cy : Txt),
        categorize_bank row ct cy ∈ labelSet ∧ categorize_bank_lc row ct cy ∈ labelSet :=
  ⟨fun _ => ⟨glLabelOf_mem _ _, glLabelOf_lc_mem _ _⟩,
   fun _ _ _ => ⟨bankLabelOf_mem _ _, bankLabelOf_lc_mem _ _⟩⟩

/-- The bank row of spec scenario 4 (Detail Debits). -/
def bankTaxRow : RawRow :=
  [("Text".data, .str "TAXPAY Q3 ESTIMATE".data),
   ("Data Type".data, .str "Detail Debits".data)]

/-- Scenario 4 with Data Type Detail Credits. -/
def bankTaxRowCred : RawRow :=
  [("Text".data, .str "TAXPAY Q3 ESTIMATE".data),
   ("Data Type".data, .str "Detail Credits".data)]

/-- Claim C5: past rules 1-5, categorize_bank answers TAX exactly when
the normalized text contains "TAX " or "TAXPAY" and the normalized type
equals DETAIL DEBITS; scenario 4 follows: TAXPAY with Detail Debits is
TAX, with Detail Credits UNMATCHED. -/
theorem categorize_bank_tax_rule (row : RawRow) (ct cy : Txt)
    (h1 : ncMatch (normalize_text (rowGet row ct)) = false)
    (h2 : r119Match (normalize_text (rowGet row ct)) = false)
    (h3 : r117Match (normalize_text (rowGet row ct)) = false)
    (h4 : r153Match (normalize_text (rowGet row ct)) = false)
    (h5 : apMatch (normalize_text (rowGet row ct)) (normalize_text (rowGet row cy)) = false) :
    (categorize_bank row ct cy = "TAX".data ↔
      ((pyIn "TAX ".data (normalize_text (rowGet row ct)) = true
        ∨ pyIn "TAXPAY".data (normalize_text (rowGet row ct)) = true)
       ∧ normalize_text (rowGet row cy) = "DETAIL DEBITS".data))
    ∧ categorize_bank bankTaxRow "Text".data "Data Type".data = "TAX".data
    ∧ categorize_bank bankTaxRowCred "Text".data "Data Type".data = "UNMATCHED".data := by
  refine ⟨?_, by decide, by decide⟩
  unfold categorize_bank bankLabelOf
  rw [h1, h2, h3, h4, h5,
      if_neg Bool.false_ne_true, if_neg Bool.false_ne_true, if_neg Bool.false_ne_true,
      if_neg Bool.false_ne_true, if_neg Bool.false_ne_true]
  by_cases h6 : taxMatch (normalize_text (rowGet row ct)) (normalize_text (rowGet row cy)) = true
  · rw [if_pos h6]
    unfold taxMatch at h6
    rw [Bool.and_eq_true, Bool.or_eq_true] at h6
    exact ⟨fun _ => ⟨h6.1, of_decide_eq_true h6.2⟩, fun _ => rfl⟩
  · rw [if_neg h6]
    constructor
    · intro hcontra
      exact absurd hcontra (by decide)
    · intro hr
      exfalso
      apply h6
      unfold taxMatch
      rw [Bool.and_eq_true, Bool.or_eq_true]
      exact ⟨hr.1, decide_eq_true hr.2⟩

/-- Witness for C5 at scenario 4: rules 1-5 all fail on the TAXPAY row
and the TAX rule fires. -/
theorem categorize_bank_tax_rule_witness :
    ncMatch (normalize_text (rowGet bankTaxRow "Text".data)) = false
    ∧ apMatch (normalize_text (rowGet bankTaxRow "Text".data))
        (normalize_text (rowGet bankTaxRow "Data Type".data)) = false
    ∧ categorize_bank bankTaxRow "Text".data "Data Type".data = "TAX".data := by
  have h := categorize_bank_tax_rule bankTaxRow "Text".data "Data Type".data
    (by decide) (by decide) (by decide) (by decide) (by decide)
  exact ⟨by decide, by decide, h.2.1⟩

/-- Is this cell non-text? -/
def cellNonText : PyCell → Bool
  | .str _ => false
  | _ => true

/-- The resolved cell at column k is absent from the row or non-text. -/
def blankAt (r : RawRow) (k : Txt) : Bool :=
  match r.find? (fun p => decide (p.1 = k)) with
  | some p => cellNonText p.2
  | none => true

/-- A blank column normalizes to the empty text. -/
theorem normalize_of_blank (r : RawRow) (k : Txt) (h : blankAt r k = true) :
    normalize_text (rowGet r k) = [] := by
  unfold blankAt at h
  unfold rowGet
  cases hf : r.find? (fun p => decide (p.1 = k)) with
  | none => rfl
  | some p =>
    rw [hf] at h
    have h2 : cellNonText p.2 = true := h
    show normalize_text p.2 = []
    cases hp : p.2 with
    | str s =>
      rw [hp] at h2
      exact absurd h2 (by simp [cellNonText])
    | pyNone => rfl
    | nan => rfl
    | num n => rfl

/-- Claim C10: when the resolved text cell and type cell are both absent
or non-text, both source variants of categorize_bank answer UNMATCHED:
both normalized inputs are empty and no rule predicate holds on empty
texts. -/
theorem categorize_bank_blank_unmatched (row : RawRow) (ct cy : Txt)
    (h1 : blankAt row ct = true) (h2 : blankAt row cy = true) :
    categorize_bank row ct cy = "UNMATCHED".data
    ∧ categorize_bank_lc row ct cy = "UNMATCHED".data := by
  have e1 := normalize_of_blank row ct h1
  have e2 := normalize_of_blank row cy h2
  constructor
  · unfold categorize_bank
    rw [e1, e2]
    decide
  · unfold categorize_bank_lc
    rw [e1, e2]
    decide

/-- A bank row with a None text cell and no type column at all. -/
def blankRow : RawRow := [("Text".data, PyCell.pyNone)]

/-- Witness for C10 on a concrete blank row. -/
theorem categorize_bank_blank_unmatched_witness :
    blankAt blankRow "Text".data = true
    ∧ blankAt blankRow "Data Type".data = true
    ∧ categorize_bank blankRow "Text".data "Data Type".data = "UNMATCHED".data :=
  ⟨by decide, by decide,
   (categorize_bank_blank_unmatched blankRow "Text".data "Data Type".data
     (by decide) (by decide)).1⟩

/-- The upper-cased source field read by categorize_gl. -/
def glSrcUp (row : GLRow) : Txt := pyUpper (pyStr (getCell row.source))

/-- The upper-cased description field read by categorize_gl. -/
def glDescUp (row : GLRow) : Txt := pyUpper (pyStr (getCell row.desc))

/-- A GL row whose source contains TAX (and no H11) while its
description contains 117. -/
def glRowAgree : GLRow := ⟨some (.str "TAX".data), some (.str "run 117".data), 0⟩

/-- A GL row whose source contains TAX (and no H11) and that reaches
rule 6. -/
def glRowDisagree : GLRow := ⟨some (.str "TAX".data), some (.str "misc".data), 0⟩

/-- Counterexample to C4 as stated: on this row the upper-cased source
contains "TAX" and not "H11", yet the two variants agree (both label it
117), so the set of rows with TAX-but-no-H11 sources is not exactly the
disagreement set. -/
theorem gl_variants_counterexample :
    pyIn "TAX".data (glSrcUp glRowAgree) = true
    ∧ pyIn "H11".data (glSrcUp glRowAgree) = false
    ∧ categorize_gl glRowAgree = categorize_gl_lc glRowAgree
    ∧ categorize_gl glRowAgree = "117".data := by
  refine ⟨by decide, by decide, by decide, by decide⟩

/-- Case analysis over the seven rule conditions comparing the two GL
rule chains. -/
theorem gl_core_compare : ∀ b1 b2 b3 b4 b5 b6 b7 : Bool,
    ((if b1 then "117".data else if b2 then "153".data else if b3 then "119".data
      else if b4 then "NC Bank".data else if b5 then "AP".data
      else if b6 then "TAX".data else ("UNMATCHED".data : Txt))
     ≠ (if b1 then "117".data else if b2 then "153".data else if b3 then "119".data
      else if b4 then "NC Bank".data else if b5 then "AP".data
      else if b6 || b7 then "TAX".data else "UNMATCHED".data)
     ↔ (b1 = false ∧ b2 = false ∧ b3 = false ∧ b4 = false ∧ b5 = false
        ∧ b7 = true ∧ b6 = false))
    ∧ ((if b1 then "117".data else if b2 then "153".data else if b3 then "119".data
      else if b4 then "NC Bank".data else if b5 then "AP".data
      else if b6 then "TAX".data else ("UNMATCHED".data : Txt))
     ≠ (if b1 then "117".data else if b2 then "153".data else if b3 then "119".data
      else if b4 then "NC Bank".data else if b5 then "AP".data
      else if b6 || b7 then "TAX".data else "UNMATCHED".data) →
      ((if b1 then "117".data else if b2 then "153".data else if b3 then "119".data
        else if b4 then "NC Bank".data else if b5 then "AP".data
        else if b6 then "TAX".data else ("UNMATCHED".data : Txt)) = "UNMATCHED".data
       ∧ (if b1 then "117".data else if b2 then "153".data else if b3 then "119".data
        else if b4 then "NC Bank".data else if b5 then "AP".data
        else if b6 || b7 then "TAX".data else ("UNMATCHED".data : Txt)) = "TAX".data)) := by
  intro b1 b2 b3 b4 b5 b6 b7
  cases b1 <;> cases b2 <;> cases b3 <;> cases b4 <;> cases b5 <;> cases b6 <;> cases b7 <;> decide

/-- Amendment of C4: the two GL variants disagree exactly on rows where
every description rule and the AP rule fail and the upper-cased source
contains "TAX" but not "H11"; on exactly those rows the agentic variant
answers UNMATCHED and the langchain variant TAX. -/
theorem gl_variants_amended (row : GLRow) :
    (categorize_gl row ≠ categorize_gl_lc row ↔
      (pyIn "117".data (glDescUp row) = false ∧ pyIn "153".data (glDescUp row) = false
       ∧ pyIn "119".data (glDescUp row) = false ∧ pyIn "NC BANK".data (glDescUp row) = false
       ∧ pyIn "AP".data (glSrcUp row) = false
       ∧ pyIn "TAX".data (glSrcUp row) = true ∧ pyIn "H11".data (glSrcUp row) = false))
    ∧ (categorize_gl row ≠ categorize_gl_lc row →
        categorize_gl row = "UNMATCHED".data ∧ categorize_gl_lc row = "TAX".data) :=
  gl_core_compare (pyIn "117".data (glDescUp row)) (pyIn "153".data (glDescUp row))
    (pyIn "119".data (glDescUp row)) (pyIn "NC BANK".data (glDescUp row))
    (pyIn "AP".data (glSrcUp row)) (pyIn "H11".data (glSrcUp row))
    (pyIn "TAX".data (glSrcUp row))

/-- Witness for the amendment: a concrete row on which the variants do
disagree, with the stated pair of labels. -/
theorem gl_variants_amended_witness :
    categorize_gl glRowDisagree ≠ categorize_gl_lc glRowDisagree
    ∧ categorize_gl glRowDisagree = "UNMATCHED".data
    ∧ categorize_gl_lc glRowDisagree = "TAX".data := by
  have h := gl_variants_amended glRowDisagree
  have hne : categorize_gl glRowDisagree ≠ categorize_gl_lc glRowDisagree :=
    h.1.mpr (by decide)
  exact ⟨hne, (h.2 hne).1, (h.2 hne).2⟩

/-- The grouped table is keyed by the distinct labels of its input. -/
theorem groupSum_keys (rows : List (Txt × Int)) :
    (groupSum rows).map Prod.fst = (rows.map Prod.fst).dedup := by
  unfold groupSum
  rw [List.map_map]
  have hid : (Prod.fst ∘ fun k : Txt =>
      (k, ((rows.filter (fun p => decide (p.1 = k))).map Prod.snd).sum)) = id := rfl
  rw [hid, List.map_id]

/-- The summary is keyed by the union of the two key sets. -/
theorem summarize_keys (gl bank : List (Txt × Int)) :
    (summarize gl bank).map Prod.fst
      = (((gl.map Prod.fst).dedup ++ (bank.map Prod.fst).dedup)).dedup := by
  unfold summarize
  rw [List.map_map, groupSum_keys, groupSum_keys]
  have hid : (Prod.fst ∘ fun c : Txt =>
      (c, (lookupVal (groupSum gl) c).getD 0, (lookupVal (groupSum bank) c).getD 0)) = id := rfl
  rw [hid, List.map_id]

/-- Lookup misses exactly outside the key set. -/
theorem lookupVal_eq_none (g : List (Txt × Int)) (k : Txt) (h : k ∉ g.map Prod.fst) :
    lookupVal g k = none := by
  unfold lookupVal
  cases hf : g.find? (fun p => decide (p.1 = k)) with
  | none => rfl
  | some p =>
    exfalso
    have hp := List.find?_some hf
    have hm := List.mem_of_find?_eq_some hf
    rw [decide_eq_true_eq] at hp
    apply h
    rw [← hp]
    exact List.mem_map_of_mem Prod.fst hm

/-- Claim C6: the summary holds exactly one row per label appearing on
either side (no duplicates, nothing else), and a label absent from one
side carries total 0 there. -/
theorem summarize_category_union (gl bank : List (Txt × Int)) :
    ((summarize gl bank).map Prod.fst).Nodup
    ∧ (∀ c, c ∈ (summarize gl bank).map Prod.fst ↔
        (c ∈ gl.map Prod.fst ∨ c ∈ bank.map Prod.fst))
    ∧ ∀ e ∈ summarize gl bank,
        (e.1 ∉ gl.map Prod.fst → e.2.1 = 0) ∧ (e.1 ∉ bank.map Prod.fst → e.2.2 = 0) := by
  refine ⟨?_, ?_, ?_⟩
  · rw [summarize_keys]
    exact List.nodup_dedup _
  · intro c
    rw [summarize_keys]
    simp [List.mem_dedup]
  · intro e he
    unfold summarize at he
    rcases List.mem_map.mp he with ⟨c, _, rfl⟩
    constructor
    · intro hnot
      have hkey : c ∉ (groupSum gl).map Prod.fst := by
        rw [groupSum_keys, List.mem_dedup]
        exact hnot
      simp [lookupVal_eq_none _ _ hkey]
    · intro hnot
      have hkey : c ∉ (groupSum bank).map Prod.fst := by
        rw [groupSum_keys, List.mem_dedup]
        exact hnot
      simp [lookupVal_eq_none _ _ hkey]

/-- Two GL pairs under one label. -/
def glPairs0 : List (Txt × Int) := [("AP".data, 3), ("AP".data, 4)]

/-- One bank pair under another label. -/
def bankPairs0 : List (Txt × Int) := [("TAX".data, 5)]

/-- Witness for C6 on concrete labelled amounts. -/
theorem summarize_category_union_witness :
    ("AP".data ∈ (summarize glPairs0 bankPairs0).map Prod.fst)
    ∧ ((summarize glPairs0 bankPairs0).map Prod.fst).Nodup := by
  have h := summarize_category_union glPairs0 bankPairs0
  exact ⟨(h.2.1 "AP".data).mpr (Or.inl (by decide)), h.1⟩

/-- Every member of a joined list occurs in the joined text. -/
theorem infix_joinSep (sep : Txt) :
    ∀ (cols : List Txt) (c : Txt), c ∈ cols → c <:+: joinSep sep cols
  | [], c, h => absurd h (List.not_mem_nil c)
  | x :: xs, c, h => by
    rcases List.mem_cons.mp h with h1 | h2
    · subst h1
      cases xs with
      | nil => exact List.infix_rfl
      | cons y ys =>
        show c <:+: c ++ sep ++ joinSep sep (y :: ys)
        rw [List.append_assoc]
        exact (List.prefix_append c _).isInfix
    · have ih := infix_joinSep sep xs c h2
      cases xs with
      | nil => exact absurd h2 (List.not_mem_nil c)
      | cons y ys =>
        show c <:+: x ++ sep ++ joinSep sep (y :: ys)
        have h3 : joinSep sep (y :: ys) <:+: (x ++ sep) ++ joinSep sep (y :: ys) :=
          (List.suffix_append _ _).isInfix
        exact ih.trans h3

/-- Every actual column name occurs in the error message. -/
theorem mem_infix_bankColsMsg (cols : List Txt) (c : Txt) (h : c ∈ cols) :
    c <:+: bankColsMsg cols := by
  have h1 := infix_joinSep ", ".data cols c h
  have h2 : joinSep ", ".data cols <:+: pyListRepr cols := by
    refine ⟨['['], [']'], ?_⟩
    unfold pyListRepr
    rfl
  have h3 : pyListRepr cols <:+: bankColsMsg cols := by
    unfold bankColsMsg
    exact (List.suffix_append _ _).isInfix
  exact (h1.trans h2).trans h3

/-- Amendment of C7: when any of the three logical bank columns fails
to resolve, the pipeline halts with the error message — so no labelled
bank table and no summary are produced — and that message carries every
column name actually found; it does not name the key that failed. -/
theorem pipeline_missing_column (gl : List GLRow) (bankCols : List Txt)
    (bank : List RawRow)
    (h : find_col bankCols "Text".data = none
         ∨ find_col bankCols "Data Type".data = none
         ∨ find_col bankCols "Revsd amt".data = none) :
    runPipeline gl bankCols bank = Except.error (bankColsMsg bankCols)
    ∧ ∀ c ∈ bankCols, c <:+: bankColsMsg bankCols := by
  refine ⟨?_, fun c hc => mem_infix_bankColsMsg bankCols c hc⟩
  cases hT : find_col bankCols "Text".data with
  | none => simp [runPipeline, hT]
  | some ct =>
    cases hD : find_col bankCols "Data Type".data with
    | none => simp [runPipeline, hT, hD]
    | some cy =>
      cases hR : find_col bankCols "Revsd amt".data with
      | none => simp [runPipeline, hT, hD, hR]
      | some ca =>
        rcases h with h | h | h
        · rw [hT] at h
          exact Option.noConfusion h
        · rw [hD] at h
          exact Option.noConfusion h
        · rw [hR] at h
          exact Option.noConfusion h

/-- A bank header with no Revsd amt column. -/
def badCols : List Txt := ["Text".data, "Data Type".data, "Amount".data]

/-- Counterexample to C7 as stated: with the Revsd amt column missing
the pipeline does fail before bank classification, but the error text
does not contain the attempted key "Revsd amt" — it reports only the
columns found. -/
theorem pipeline_missing_key_counterexample :
    find_col badCols "Revsd amt".data = none
    ∧ runPipeline [] badCols [] = Except.error (bankColsMsg badCols)
    ∧ pyIn "Revsd amt".data (bankColsMsg badCols) = false := by
  refine ⟨by decide, by rfl, by decide⟩

/-- Witness for the C7 amendment at the concrete bad header. -/
theorem pipeline_missing_column_witness :
    runPipeline [] badCols [] = Except.error (bankColsMsg badCols)
    ∧ "Amount".data <:+: bankColsMsg badCols := by
  have h := pipeline_missing_column [] badCols [] (Or.inr (Or.inr (by decide)))
  exact ⟨h.1, h.2 "Amount".data (by decide)⟩
